import Mathlib

/-!
Verification of the namespace-cleaner reconciliation engine
(repository `StatCan/namespace-cleaner`).

The Go sources are shallowly embedded below:

* `internal/clients/clients.go` : `ValidDomain` (domain validator);
* `internal/config/config.go`   : `getGracePeriod` (grace-period parsing,
  with `strconv.Atoi` modelled as `atoi`);
* `internal/cleaner/cleaner.go` and `internal/cleaner/processor.go` :
  the two-phase reconciliation engine (`ProcessNamespaces`,
  `processPhase1`, `processPhase2`, `processUnlabeledNamespace`,
  `processLabeledNamespace`) together with the label-time layout
  `2006-01-02_15-04-05Z` (formatting and parsing are embedded as the
  calendar functions `formatLabelTime` / `parseLabelTime`);
* `pkg/stats/stats.go`          : the `Stats` counters.

Go strings are modelled as `List Char` (`Str`); Go maps used for labels
and annotations are modelled as association lists with at most one
binding per key; instants are modelled as integer nanoseconds since the
Unix epoch (UTC), the resolution of Go's `time.Time`, so that label
values carrying a fractional second keep their full precision.
The Kubernetes namespace store is a list of namespace records; the
Microsoft Graph directory is abstracted as a pure predicate
`Str → Bool` (this matches both the production lookup and the
test-mode lookup in `clients.go`, which are effectively pure
email-membership queries from the engine's point of view).
Mutation failures are modelled by a success oracle `ok : Mutation → Bool`;
list failures by the `ListFailures` flags.
-/

/-- Go strings, modelled as lists of characters. -/
abbrev Str := List Char

/-- Injection of a Lean string literal into the model's string type. -/
def str (s : String) : Str := s.data

/-! ## Domain validator (`internal/clients/clients.go`) -/

/-- Go `strings.Split(s, sep)` for a one-character separator `c`:
splits `s` at every occurrence of `c`; the separators are not kept and
empty fields are preserved (`Split("", sep) = [""]`). -/
def splitOnChar (c : Char) : Str → List Str
  | [] => [[]]
  | x :: xs =>
    if x = c then [] :: splitOnChar c xs
    else
      match splitOnChar c xs with
      | [] => [[x]]
      | h :: t => (x :: h) :: t

/-- Go `strings.HasSuffix(s, suffix)`. -/
def hasSuffix (s suffix : Str) : Bool := decide (suffix <:+ s)

/-- Function `ValidDomain` from `internal/clients/clients.go`: split the email on
`"@"`; unless the split yields exactly two parts return `false`;
otherwise accept iff the part after the `@` equals an allowed domain or
has `"." ++ allowed` as a suffix. -/
def ValidDomain (email : Str) (domains : List Str) : Bool :=
  match splitOnChar '@' email with
  | [_, domain] => domains.any fun allowed =>
      decide (domain = allowed) || hasSuffix domain ('.' :: allowed)
  | _ => false

/-! ## Grace-period configuration (`internal/config/config.go`) -/

/-- All characters are decimal digits and the list is nonempty; the
numeric value of the digit string. -/
def digitsToNat? : Str → Option Nat
  | [] => none
  | [c] => if '0' ≤ c ∧ c ≤ '9' then some (c.toNat - 48) else none
  | c :: cs =>
    if '0' ≤ c ∧ c ≤ '9' then
      match digitsToNat? cs with
      | some n => some ((c.toNat - 48) * 10 ^ cs.length + n)
      | none => none
    else none

/-- Go `strconv.Atoi`: an optional sign followed by at least one decimal
digit and nothing else, with the value required to fit in a 64-bit
signed integer (out-of-range values produce an error, hence `none`). -/
def atoi (s : Str) : Option Int :=
  let signed : Int × Str :=
    match s with
    | '+' :: r => (1, r)
    | '-' :: r => (-1, r)
    | r => (1, r)
  match digitsToNat? signed.2 with
  | none => none
  | some n =>
    let v : Int := signed.1 * n
    if -(2 ^ 63) ≤ v ∧ v < 2 ^ 63 then some v else none

/-- Function `getGracePeriod` from `internal/config/config.go`, as a function of
the value of the `GRACE_PERIOD` environment variable (`os.Getenv`
returns the empty string when the variable is unset):
empty → 30; `Atoi` error or negative → 0; otherwise the parsed value. -/
def getGracePeriod (val : Str) : Int :=
  if val = [] then 30
  else
    match atoi val with
    | none => 0
    | some days => if days < 0 then 0 else days

/-! ## Label-time layout `2006-01-02_15-04-05Z`
(`internal/cleaner/cleaner.go`, used by `processor.go`)

Instants are integer nanoseconds since the Unix epoch (UTC).  The civil
calendar conversions follow the standard proleptic-Gregorian algorithms
used by Go's `time` package (era-based day counting). -/

/-- Gregorian leap-year rule. -/
def isLeap (y : Int) : Bool := y % 4 = 0 && (y % 100 ≠ 0 || y % 400 = 0)

/-- Number of days of month `m` in year `y`. -/
def daysInMonth (y m : Int) : Int :=
  if m = 2 then (if isLeap y then 29 else 28)
  else if m = 4 ∨ m = 6 ∨ m = 9 ∨ m = 11 then 30
  else 31

/-- Convert a day count (days since 1970-01-01) to a civil date
(year, month, day), proleptic Gregorian. -/
def civilFromDays (z₀ : Int) : Int × Int × Int :=
  let z := z₀ + 719468
  let era := z / 146097
  let doe := z - era * 146097
  let yoe := (doe - doe / 1460 + doe / 36524 - doe / 146096) / 365
  let y := yoe + era * 400
  let doy := doe - (365 * yoe + yoe / 4 - yoe / 100)
  let mp := (5 * doy + 2) / 153
  let d := doy - (153 * mp + 2) / 5 + 1
  let m := if mp < 10 then mp + 3 else mp - 9
  (if m ≤ 2 then y + 1 else y, m, d)

/-- Convert a civil date to a day count (days since 1970-01-01),
proleptic Gregorian. -/
def daysFromCivil (y₀ m d : Int) : Int :=
  let y := if m ≤ 2 then y₀ - 1 else y₀
  let era := y / 400
  let yoe := y - era * 400
  let mp := if m > 2 then m - 3 else m + 9
  let doy := (153 * mp + 2) / 5 + d - 1
  let doe := yoe * 365 + yoe / 4 - yoe / 100 + doy
  era * 146097 + doe - 719468

/-- The decimal digit character for `n % 10`. -/
def digitChar (n : Nat) : Char := Char.ofNat (48 + n % 10)

/-- Two-digit zero-padded decimal rendering. -/
def pad2 (n : Int) : Str := [digitChar (n.toNat / 10), digitChar n.toNat]

/-- Four-digit zero-padded decimal rendering (Go's `2006` year token). -/
def pad4 (n : Int) : Str :=
  [digitChar (n.toNat / 1000), digitChar (n.toNat / 100),
   digitChar (n.toNat / 10), digitChar n.toNat]

/-- Go `t.Format("2006-01-02_15-04-05Z")` for an instant `t` in UTC
nanoseconds: the formatted output has second resolution, so the
sub-second part of the instant is simply not printed (the trailing `Z`
is a literal character in this layout, not a zone token). -/
def formatLabelTime (t : Int) : Str :=
  let secs := t / 1000000000
  let days := secs / 86400
  let sod := (secs % 86400).toNat
  let ymd := civilFromDays days
  pad4 ymd.1 ++ '-' :: pad2 ymd.2.1 ++ '-' :: pad2 ymd.2.2 ++
    '_' :: pad2 (sod / 3600) ++ '-' :: pad2 (sod % 3600 / 60) ++
    '-' :: pad2 (sod % 60) ++ ['Z']

/-- The numeric value of a decimal digit character, if it is one. -/
def digitVal? (c : Char) : Option Nat :=
  if '0' ≤ c ∧ c ≤ '9' then some (c.toNat - 48) else none

/-- Go time's `getnum(value, true)` (fixed width): exactly two decimal
digits, returning the value and the rest of the input. -/
def getnum2 : Str → Option (Nat × Str)
  | c1 :: c2 :: rest =>
    match digitVal? c1, digitVal? c2 with
    | some a, some b => some (a * 10 + b, rest)
    | _, _ => none
  | _ => none

/-- Go time's `getnum(value, false)` (non-fixed width, used for the
`15` hour token): one decimal digit, or two when the second character
is also a digit. -/
def getnum1or2 : Str → Option (Nat × Str)
  | [] => none
  | c1 :: rest =>
    match digitVal? c1 with
    | none => none
    | some a =>
      match rest with
      | c2 :: rest2 =>
        match digitVal? c2 with
        | some b => some (a * 10 + b, rest2)
        | none => some (a, rest)
      | [] => some (a, rest)

/-- Go time's year parsing for the `2006` token: exactly four decimal
digits. -/
def getnum4 : Str → Option (Nat × Str)
  | c1 :: c2 :: c3 :: c4 :: rest =>
    match digitVal? c1, digitVal? c2, digitVal? c3, digitVal? c4 with
    | some a, some b, some c, some d =>
      some (((a * 10 + b) * 10 + c) * 10 + d, rest)
    | _, _, _, _ => none
  | _ => none

/-- Consume one expected literal layout character. -/
def expectChar (c : Char) : Str → Option Str
  | x :: rest => if x = c then some rest else none
  | [] => none

/-- Longest leading run of decimal digits, with the rest of the input. -/
def takeDigits : Str → Str × Str
  | [] => ([], [])
  | c :: rest =>
    if '0' ≤ c ∧ c ≤ '9' then
      let r := takeDigits rest
      (c :: r.1, r.2)
    else ([], c :: rest)

/-- Numeric value of a string of decimal digits. -/
def digitsVal (l : Str) : Nat := l.foldl (fun acc c => acc * 10 + (c.toNat - 48)) 0

/-- Go time's special case for a fractional second in the value with no
fractional-second token in the layout (`Parse`, case `stdZeroSecond`):
when the seconds field is followed by `.` or `,` and at least one
digit, the whole digit run is consumed and the first nine digits become
the nanosecond part (`parseNanoseconds` truncates the rest).  Otherwise
nothing is consumed.  Returns the nanoseconds and the remaining input. -/
def scanFrac : Str → Nat × Str
  | c :: d :: rest =>
    if (c = '.' ∨ c = ',') ∧ (digitVal? d).isSome then
      let run := takeDigits (d :: rest)
      let used := min run.1.length 9
      (digitsVal (run.1.take used) * 10 ^ (9 - used), run.2)
    else (0, c :: d :: rest)
  | other => (0, other)

/-- Go `time.ParseInLocation("2006-01-02_15-04-05Z", s, time.UTC)`,
token by token as Go's `Parse` consumes this layout: a four-digit year,
literal `-`, two-digit month, literal `-`, two-digit day, literal `_`,
a one-or-two-digit hour (the `15` token is parsed non-fixed), literal
`-`, two-digit minute, literal `-`, two-digit second, an optional
fractional second (accepted although the layout has none), the literal
`Z`, and no trailing text; every component must be in range (month
1–12, day valid for the month, hour ≤ 23, minute/second ≤ 59).  The
result is the instant in UTC nanoseconds. -/
def parseLabelTime (s : Str) : Option Int := do
  let (y, s1) ← getnum4 s
  let s2 ← expectChar '-' s1
  let (mo, s3) ← getnum2 s2
  let s4 ← expectChar '-' s3
  let (da, s5) ← getnum2 s4
  let s6 ← expectChar '_' s5
  let (ho, s7) ← getnum1or2 s6
  let s8 ← expectChar '-' s7
  let (mi, s9) ← getnum2 s8
  let s10 ← expectChar '-' s9
  let (se, s11) ← getnum2 s10
  let frac := scanFrac s11
  let s12 ← expectChar 'Z' frac.2
  if s12 = [] ∧ 1 ≤ mo ∧ mo ≤ 12 ∧ 1 ≤ da ∧
      (da : Int) ≤ daysInMonth (y : Int) (mo : Int) ∧
      ho ≤ 23 ∧ mi ≤ 59 ∧ se ≤ 59 then
    some (daysFromCivil (y : Int) (mo : Int) (da : Int) * 86400000000000 +
      ((ho * 3600 + mi * 60 + se : Nat) : Int) * 1000000000 +
      (frac.1 : Int))
  else none

/-! ## Run statistics (`pkg/stats/stats.go`) -/

/-- The `Stats` counters from `pkg/stats/stats.go`. -/
structure Stats where
  TotalNamespaces : Nat
  Labeled : Nat
  Deleted : Nat
  LabelsRemoved : Nat
  InvalidLabels : Nat
  SkippedMissingOwner : Nat
  SkippedInvalidDomain : Nat
  SkippedExistingUser : Nat
deriving DecidableEq

/-- The zero-initialised statistics record (`&stats.Stats{}`). -/
def Stats.empty : Stats := ⟨0, 0, 0, 0, 0, 0, 0, 0⟩

def Stats.IncTotal (s : Stats) : Stats :=
  { s with TotalNamespaces := s.TotalNamespaces + 1 }

def Stats.IncLabeled (s : Stats) : Stats := { s with Labeled := s.Labeled + 1 }

def Stats.IncDeleted (s : Stats) : Stats := { s with Deleted := s.Deleted + 1 }

def Stats.IncLabelRemoved (s : Stats) : Stats :=
  { s with LabelsRemoved := s.LabelsRemoved + 1 }

def Stats.IncInvalidLabel (s : Stats) : Stats :=
  { s with InvalidLabels := s.InvalidLabels + 1 }

def Stats.IncSkippedMissingOwner (s : Stats) : Stats :=
  { s with SkippedMissingOwner := s.SkippedMissingOwner + 1 }

def Stats.IncSkippedInvalidDomain (s : Stats) : Stats :=
  { s with SkippedInvalidDomain := s.SkippedInvalidDomain + 1 }

def Stats.IncSkippedExistingUser (s : Stats) : Stats :=
  { s with SkippedExistingUser := s.SkippedExistingUser + 1 }

/-! ## Namespace store model -/

/-- A Kubernetes namespace record, as consumed by the engine: a name,
the annotation map and the label map. -/
structure NS where
  name : Str
  annotations : List (Str × Str)
  labels : List (Str × Str)
deriving DecidableEq

/-- Go map lookup with `ok` flag: `v, ok := m[k]`. -/
def mapGet (m : List (Str × Str)) (k : Str) : Option Str :=
  match m.find? fun p => decide (p.1 = k) with
  | some p => some p.2
  | none => none

/-- The `namespace-cleaner/delete-at` label key (`labelKey`). -/
def labelKey : Str := str "namespace-cleaner/delete-at"

/-- The membership label key in Phase 1's selector. -/
def partOfKey : Str := str "app.kubernetes.io/part-of"

/-- The membership label value in Phase 1's selector. -/
def partOfValue : Str := str "kubeflow-profile"

/-- The `owner` annotation key. -/
def ownerKey : Str := str "owner"

/-- Set key `k` to `v` in a label map (the effect of the merge patch
`{"metadata":{"labels":{k:v}}}`): any existing binding of `k` is
replaced, other keys are untouched. -/
def lset (m : List (Str × Str)) (k v : Str) : List (Str × Str) :=
  (m.filter fun p => decide (p.1 ≠ k)) ++ [(k, v)]

/-- Remove key `k` from a label map (the effect of the merge patch
`{"metadata":{"labels":{k:null}}}`). -/
def lremove (m : List (Str × Str)) (k : Str) : List (Str × Str) :=
  m.filter fun p => decide (p.1 ≠ k)

/-- A mutation issued by the engine through the `NamespaceCleaner`
interface. -/
inductive Mutation where
  | setLabel (name : Str) (value : Str)
  | removeLabel (name : Str)
  | delete (name : Str)
deriving DecidableEq

/-- Effect of a successful mutation on the namespace store
(`Cleaner.LabelNamespace` / `Cleaner.RemoveLabel` /
`Cleaner.DeleteNamespace` in `internal/cleaner/cleaner.go`). -/
def applyToStore (store : List NS) : Mutation → List NS
  | .setLabel n v =>
    store.map fun ns =>
      if ns.name = n then { ns with labels := lset ns.labels labelKey v } else ns
  | .removeLabel n =>
    store.map fun ns =>
      if ns.name = n then { ns with labels := lremove ns.labels labelKey } else ns
  | .delete n => store.filter fun ns => decide (ns.name ≠ n)

/-- Execution context of the `Cleaner`: the dry-run flag and a success
oracle for the real mutations (a `false` answer models the Kubernetes
API returning an error for that call). -/
structure ExecCtx where
  dryRun : Bool
  ok : Mutation → Bool

/-- Mutable state threaded through a run: the namespace store, the
statistics, and the trace of mutations issued to the store. -/
structure RunState where
  store : List NS
  stats : Stats
  trace : List Mutation
deriving DecidableEq

/-- One call through the `NamespaceCleaner` interface.  Under dry-run
the call only logs and reports success without touching the store (so
nothing is recorded in the trace); otherwise the mutation is issued and,
if the success oracle grants it, applied to the store.  The returned
flag is `err == nil` at the call site. -/
def issue (c : ExecCtx) (rs : RunState) (m : Mutation) : RunState × Bool :=
  if c.dryRun then (rs, true)
  else if c.ok m then
    ({ rs with store := applyToStore rs.store m, trace := rs.trace ++ [m] }, true)
  else ({ rs with trace := rs.trace ++ [m] }, false)

/-- Reconciliation configuration as consumed by the engine
(`internal/config/config.go`'s `Config`, restricted to the fields the
processor reads; the directory is abstracted separately). -/
structure Config where
  AllowedDomains : List Str
  GracePeriod : Int

/-- Function `processUnlabeledNamespace` from `internal/cleaner/processor.go`:
Phase 1's per-namespace worker.  `dir` is the directory-existence
predicate (`clients.UserExists`). -/
def processUnlabeledNamespace (c : ExecCtx) (dir : Str → Bool) (cfg : Config)
    (graceDate : Str) (ns : NS) (rs : RunState) : RunState :=
  match mapGet ns.annotations ownerKey with
  | none => { rs with stats := rs.stats.IncSkippedMissingOwner }
  | some email =>
    if !ValidDomain email cfg.AllowedDomains then
      { rs with stats := rs.stats.IncSkippedInvalidDomain }
    else if dir email then
      { rs with stats := rs.stats.IncSkippedExistingUser }
    else
      let r₁ := issue c rs (.setLabel ns.name graceDate)
      let rs₂ := if r₁.2 then { r₁.1 with stats := r₁.1.stats.IncLabeled } else r₁.1
      (issue c rs₂ (.removeLabel ns.name)).1

/-- Function `processLabeledNamespace` from `internal/cleaner/processor.go`:
Phase 2's per-namespace worker.  `ns.Labels[labelKey]` is a Go map read
without an `ok` flag, so a missing key yields the empty string. -/
def processLabeledNamespace (c : ExecCtx) (dir : Str → Bool) (cfg : Config)
    (today : Int) (ns : NS) (rs : RunState) : RunState :=
  match mapGet ns.annotations ownerKey with
  | none => { rs with stats := rs.stats.IncSkippedMissingOwner }
  | some email =>
    match parseLabelTime ((mapGet ns.labels labelKey).getD []) with
    | none => { rs with stats := rs.stats.IncInvalidLabel }
    | some deletionDate =>
      if !ValidDomain email cfg.AllowedDomains then
        { rs with stats := rs.stats.IncSkippedInvalidDomain }
      else if dir email then
        let r := issue c rs (.removeLabel ns.name)
        if r.2 then { r.1 with stats := r.1.stats.IncLabelRemoved } else r.1
      else if deletionDate < today then
        let r := issue c rs (.delete ns.name)
        if r.2 then { r.1 with stats := r.1.stats.IncDeleted } else r.1
      else rs

/-- Phase 1's label selector
`app.kubernetes.io/part-of=kubeflow-profile,!namespace-cleaner/delete-at`. -/
def phase1Selector (ns : NS) : Bool :=
  decide (mapGet ns.labels partOfKey = some partOfValue) &&
    decide (mapGet ns.labels labelKey = none)

/-- Phase 2's label selector `namespace-cleaner/delete-at` (label
present, any value). -/
def phase2Selector (ns : NS) : Bool := (mapGet ns.labels labelKey).isSome

/-- The per-phase loop: `stats.IncTotal()` followed by the worker, for
each item of the listed snapshot. -/
def processItems (step : NS → RunState → RunState) (items : List NS)
    (rs : RunState) : RunState :=
  items.foldl (fun rs ns => step ns { rs with stats := rs.stats.IncTotal }) rs

/-- Function `processPhase1` from `internal/cleaner/processor.go`: list the
unlabeled members (a snapshot taken at phase start) and run the Phase 1
worker on each. -/
def processPhase1 (c : ExecCtx) (dir : Str → Bool) (cfg : Config)
    (graceDate : Str) (rs : RunState) : RunState :=
  processItems (processUnlabeledNamespace c dir cfg graceDate)
    (rs.store.filter phase1Selector) rs

/-- Function `processPhase2` from `internal/cleaner/processor.go`: list the
labeled namespaces (a snapshot taken at phase start) and run the
Phase 2 worker on each. -/
def processPhase2 (c : ExecCtx) (dir : Str → Bool) (cfg : Config)
    (today : Int) (rs : RunState) : RunState :=
  processItems (processLabeledNamespace c dir cfg today)
    (rs.store.filter phase2Selector) rs

/-- How a run terminated: `earlyReturn` is the `return stats` taken when
the initial namespace list fails; `fatalAbort` is `log.Fatalf` (process
exit) on a Phase 1 list failure; `completed` is a normal return. -/
inductive Outcome where
  | earlyReturn
  | fatalAbort
  | completed
deriving DecidableEq

/-- The observable result of one `ProcessNamespaces` call. -/
structure RunResult where
  store : List NS
  stats : Stats
  trace : List Mutation
  outcome : Outcome
deriving DecidableEq

/-- Which of the three namespace-store list calls fail during the run. -/
structure ListFailures where
  initial : Bool
  phase1 : Bool
  phase2 : Bool

/-- All three list calls succeed. -/
def noListFailures : ListFailures := ⟨false, false, false⟩

/-- Function `ProcessNamespaces` from `internal/cleaner/processor.go`.  An
initial-list failure logs and returns the empty statistics at once.  A
Phase 1 list failure hits `log.Fatalf`, which exits the process before
any per-namespace work.  A Phase 2 list failure is only logged
(`log.Printf`); the typed Kubernetes client returns an empty list
alongside the error, so the loop body runs zero times and the run then
returns normally. -/
def ProcessNamespaces (c : ExecCtx) (dir : Str → Bool) (cfg : Config)
    (now : Int) (lf : ListFailures) (store : List NS) : RunResult :=
  if lf.initial then ⟨store, Stats.empty, [], .earlyReturn⟩
  else
    let graceDate := formatLabelTime (now + cfg.GracePeriod * 86400000000000)
    if lf.phase1 then ⟨store, Stats.empty, [], .fatalAbort⟩
    else
      let rs₁ := processPhase1 c dir cfg graceDate ⟨store, Stats.empty, []⟩
      if lf.phase2 then ⟨rs₁.store, rs₁.stats, rs₁.trace, .completed⟩
      else
        let rs₂ := processPhase2 c dir cfg now rs₁
        ⟨rs₂.store, rs₂.stats, rs₂.trace, .completed⟩


/-! ## Derived observations and spec-side definitions -/

/-- Sum of the per-namespace outcome counters: every counter of `Stats`
except the scanned total. -/
def outcomeSum (s : Stats) : Nat :=
  s.Labeled + s.Deleted + s.LabelsRemoved + s.InvalidLabels +
    s.SkippedMissingOwner + s.SkippedInvalidDomain + s.SkippedExistingUser

/-- The domain-validation rule in the spec's vocabulary (amended to what
the code enforces): the email decomposes as `loc ++ "@" ++ dom` with no
other `@` anywhere, and `dom` equals some allowed domain exactly or has
`"." ++ allowed` as a suffix (subdomain match), case-sensitively.  The
parts are not required to be non-empty. -/
def ValidDomainSpec (email : Str) (domains : List Str) : Prop :=
  ∃ loc dom, email = loc ++ '@' :: dom ∧ '@' ∉ loc ∧ '@' ∉ dom ∧
    ∃ a ∈ domains, dom = a ∨ ('.' :: a) <:+ dom

/-! ## Concrete scenarios -/

/-- The spec's labeling scenario namespace `ns-a`: membership label
present, no `delete-at`, owner `ghost@example.com`. -/
def nsA : NS :=
  ⟨str "ns-a", [(ownerKey, str "ghost@example.com")], [(partOfKey, partOfValue)]⟩

/-- Configuration of the spec's scenarios: allowed domains
`{example.com}`, grace period 7 days. -/
def scenarioCfg : Config := ⟨[str "example.com"], 7⟩

/-- The instant `2024-01-01T00:00:00Z`, in nanoseconds. -/
def jan1of2024 : Int := daysFromCivil 2024 1 1 * 86400000000000

/-- The instant `2024-01-10T00:00:00Z`, in nanoseconds. -/
def jan10of2024 : Int := daysFromCivil 2024 1 10 * 86400000000000

/-- Non-dry-run execution in which every mutation succeeds. -/
def realCtx : ExecCtx := ⟨false, fun _ => true⟩

/-- The directory in which no owner exists. -/
def noUser : Str → Bool := fun _ => false

/-- A Phase 2 namespace carrying an unparsable `delete-at` value. -/
def nsGarbage : NS :=
  ⟨str "ns-bad", [(ownerKey, str "user@example.com")],
   [(partOfKey, partOfValue), (labelKey, str "garbage")]⟩

/-- A Phase 2 namespace whose `delete-at` (`2024-01-01`) has expired
relative to `jan10of2024`. -/
def nsExpired : NS :=
  ⟨str "ns-b", [(ownerKey, str "ghost@example.com")],
   [(partOfKey, partOfValue), (labelKey, str "2024-01-01_00-00-00Z")]⟩

/-! ## Sanity checks on the leaf functions (the spec's §8 examples) -/

example : ValidDomain (str "user@example.com") [str "example.com"] = true := by decide
example : ValidDomain (str "user@sub.example.com") [str "example.com"] = true := by decide
example : ValidDomain (str "user@evil.com") [str "example.com"] = false := by decide
example : ValidDomain (str "not-an-email") [str "example.com"] = false := by decide
example : getGracePeriod (str "15") = 15 := by decide
example : formatLabelTime (daysFromCivil 2024 1 8 * 86400000000000) = str "2024-01-08_00-00-00Z" := by decide
example : parseLabelTime (str "2024-01-08_00-00-00Z") = some (daysFromCivil 2024 1 8 * 86400000000000) := by decide
example : parseLabelTime (str "garbage") = none := by decide
example : parseLabelTime (str "2024-01-08_5-04-05Z") =
  some (daysFromCivil 2024 1 8 * 86400000000000 + 18245000000000) := by decide
example : parseLabelTime (str "2024-01-08_15-04-05.5Z") =
  some (daysFromCivil 2024 1 8 * 86400000000000 + 54245500000000) := by decide
example : parseLabelTime (str "2024-01-08_15-04-05,123456789012Z") =
  some (daysFromCivil 2024 1 8 * 86400000000000 + 54245123456789) := by decide
example : parseLabelTime (str "2024-01-08_155-04-05Z") = none := by decide
example : parseLabelTime (str "2024-01-08_15-4-05Z") = none := by decide
example : parseLabelTime (str "2024-01-08_15-04-05.Z") = none := by decide
example : parseLabelTime (str "2024-01-08_24-00-00Z") = none := by decide
example : formatLabelTime (jan1of2024 + 7 * 86400000000000) = str "2024-01-08_00-00-00Z" := by decide

/-! ## Claim C1 -/

/-- Claim C1 (Phase 1 labeling postcondition), evaluated on the spec's
concrete scenario: namespace `ns-a` with membership marker, no
`delete-at`, owner `ghost@example.com`, allowed domains `{example.com}`,
owner absent from the directory, grace period 7, now `2024-01-01`,
non-dry-run, all mutations succeeding.  The run does increment `Labeled`
to 1 and does issue the `delete-at = 2024-01-08_00-00-00Z` label-set
mutation — but `processUnlabeledNamespace` then unconditionally issues a
label-remove mutation for the same namespace, so the store ends exactly
as it started and `ns-a` does NOT carry the `delete-at` label after the
run, contradicting the claimed postcondition. -/
theorem c1_scenario_label_set_then_removed :
    (ProcessNamespaces realCtx noUser scenarioCfg jan1of2024
      noListFailures [nsA]).stats.Labeled = 1 ∧
    (ProcessNamespaces realCtx noUser scenarioCfg jan1of2024
      noListFailures [nsA]).trace =
      [Mutation.setLabel (str "ns-a") (str "2024-01-08_00-00-00Z"),
       Mutation.removeLabel (str "ns-a")] ∧
    (ProcessNamespaces realCtx noUser scenarioCfg jan1of2024
      noListFailures [nsA]).store = [nsA] ∧
    mapGet nsA.labels labelKey = none := by
  decide

/-! ## Claim C2 -/

/-- Claim C2 (idempotency), evaluated on the spec's labeling scenario:
because the first run's label-set mutation is immediately undone by the
stray label-remove in `processUnlabeledNamespace`, the store after the
first run equals the starting store, `ns-a` is still in Phase 1's
candidate set, and the second run with the same `now` issues the same
two mutations again instead of the claimed zero mutations. -/
theorem c2_second_run_repeats_mutations :
    (ProcessNamespaces realCtx noUser scenarioCfg jan1of2024
      noListFailures [nsA]).store = [nsA] ∧
    (ProcessNamespaces realCtx noUser scenarioCfg jan1of2024
      noListFailures
      (ProcessNamespaces realCtx noUser scenarioCfg jan1of2024
        noListFailures [nsA]).store).trace =
      [Mutation.setLabel (str "ns-a") (str "2024-01-08_00-00-00Z"),
       Mutation.removeLabel (str "ns-a")] ∧
    (ProcessNamespaces realCtx noUser scenarioCfg jan1of2024
      noListFailures
      (ProcessNamespaces realCtx noUser scenarioCfg jan1of2024
        noListFailures [nsA]).store).trace ≠ [] := by
  decide

/-! ## Claim C4 -/

/-- Claim C4 (fatal list failure), evaluated at the failing input: a
store holding one expired Phase 2 candidate that a clean run would
delete.  When Phase 1's list fails the run does abort (`log.Fatalf`,
outcome `fatalAbort`) with no processing, as claimed; but when Phase 2's
list fails the run merely logs (`log.Printf`), iterates over the empty
list the client returned alongside the error, and completes normally
(outcome `completed`, zero namespaces scanned, no mutations) instead of
aborting — the claimed Phase 2 abort does not happen, and the deletion
that full visibility would have produced is silently skipped. -/
theorem c4_phase2_list_failure_run_continues :
    (ProcessNamespaces realCtx noUser scenarioCfg jan10of2024
      ⟨false, true, false⟩ [nsExpired]).outcome = Outcome.fatalAbort ∧
    (ProcessNamespaces realCtx noUser scenarioCfg jan10of2024
      ⟨false, true, false⟩ [nsExpired]).stats = Stats.empty ∧
    (ProcessNamespaces realCtx noUser scenarioCfg jan10of2024
      ⟨false, false, true⟩ [nsExpired]).outcome = Outcome.completed ∧
    (ProcessNamespaces realCtx noUser scenarioCfg jan10of2024
      ⟨false, false, true⟩ [nsExpired]).stats.TotalNamespaces = 0 ∧
    (ProcessNamespaces realCtx noUser scenarioCfg jan10of2024
      ⟨false, false, true⟩ [nsExpired]).trace = [] ∧
    (ProcessNamespaces realCtx noUser scenarioCfg jan10of2024
      noListFailures [nsExpired]).trace = [Mutation.delete (str "ns-b")] := by
  decide

/-! ## Claim C5 -/

/-- Claim C5 counterexample: namespace `ns-bad` carries the unparsable
`delete-at` value `"garbage"` and a valid present owner; the non-dry-run
engine increments `InvalidLabels` but issues no mutation at all — the
store is unchanged and the corrupt marker is still on the namespace,
refuting the claim that the engine clears the marker. -/
theorem c5_invalid_label_left_in_place :
    (ProcessNamespaces realCtx noUser scenarioCfg jan1of2024
      noListFailures [nsGarbage]).stats.InvalidLabels = 1 ∧
    (ProcessNamespaces realCtx noUser scenarioCfg jan1of2024
      noListFailures [nsGarbage]).trace = [] ∧
    (ProcessNamespaces realCtx noUser scenarioCfg jan1of2024
      noListFailures [nsGarbage]).store = [nsGarbage] ∧
    mapGet nsGarbage.labels labelKey = some (str "garbage") := by
  decide

/-! ## Claim C6 -/

/-- Claim C6 counterexample: the configured value `"invalid"` is
unparsable (`Atoi` fails), yet `getGracePeriod` returns 0, not the
claimed default of 30. -/
theorem c6_unparsable_grace_period_yields_zero :
    atoi (str "invalid") = none ∧ getGracePeriod (str "invalid") = 0 ∧
    getGracePeriod (str "invalid") ≠ 30 := by
  decide

/-! ## Claim C7 -/

/-- Claim C7 counterexample: `"@example.com"` splits on `"@"` into an
empty local part and `"example.com"` — not two non-empty parts — yet
`ValidDomain` accepts it, refuting the claimed rejection of emails with
an empty local part. -/
theorem c7_empty_local_part_accepted :
    splitOnChar '@' (str "@example.com") = [[], str "example.com"] ∧
    ValidDomain (str "@example.com") [str "example.com"] = true := by
  decide

/-- Claim C5 as amended: in Phase 2, for every namespace whose owner
annotation is present and whose `delete-at` value fails to parse, the
engine increments `InvalidLabels` and leaves the corrupt marker in
place — the namespace record and the mutation trace are untouched (no
repair mutation is issued). -/
theorem c5_invalid_label_counted_and_left (c : ExecCtx) (dir : Str → Bool)
    (cfg : Config) (today : Int) (ns : NS) (rs : RunState) (email : Str)
    (h₁ : mapGet ns.annotations ownerKey = some email)
    (h₂ : parseLabelTime ((mapGet ns.labels labelKey).getD []) = none) :
    processLabeledNamespace c dir cfg today ns rs =
      { rs with stats := rs.stats.IncInvalidLabel } := by
  simp only [processLabeledNamespace, h₁, h₂]

/-- Witness for the amended Claim C5, at the concrete corrupt namespace
`ns-bad`. -/
theorem c5_invalid_label_counted_and_left_witness :
    processLabeledNamespace realCtx noUser scenarioCfg jan1of2024 nsGarbage
      ⟨[nsGarbage], Stats.empty, []⟩ =
      ⟨[nsGarbage], Stats.empty.IncInvalidLabel, []⟩ :=
  c5_invalid_label_counted_and_left realCtx noUser scenarioCfg jan1of2024
    nsGarbage ⟨[nsGarbage], Stats.empty, []⟩ (str "user@example.com")
    (by decide) (by decide)

/-- Claim C6 as amended: a missing (empty) grace-period value defaults
to 30 days; an unparsable value yields 0 (not 30); a parsed negative
value is clamped to 0; and the result is always non-negative. -/
theorem c6_grace_period_parsing :
    getGracePeriod [] = 30 ∧
    (∀ s : Str, s ≠ [] → atoi s = none → getGracePeriod s = 0) ∧
    (∀ (s : Str) (n : Int), atoi s = some n → n < 0 → getGracePeriod s = 0) ∧
    (∀ s : Str, 0 ≤ getGracePeriod s) := by
  refine ⟨by decide, fun s hne h => ?_, fun s n h hn => ?_, fun s => ?_⟩
  · rw [getGracePeriod, if_neg hne, h]
  · have hne : s ≠ [] := by
      rintro rfl
      rw [show atoi ([] : Str) = none by decide] at h
      cases h
    rw [getGracePeriod, if_neg hne, h]
    simp [hn]
  · rw [getGracePeriod]
    split
    · omega
    · split
      · omega
      · split <;> omega

/-- Witness for the amended Claim C6, at the concrete values `"abc"`
(unparsable) and `"-5"` (negative). -/
theorem c6_grace_period_parsing_witness :
    getGracePeriod (str "abc") = 0 ∧ getGracePeriod (str "-5") = 0 ∧
    0 ≤ getGracePeriod (str "-5") :=
  ⟨c6_grace_period_parsing.2.1 (str "abc") (by decide) (by decide),
   c6_grace_period_parsing.2.2.1 (str "-5") (-5) (by decide) (by decide),
   c6_grace_period_parsing.2.2.2 (str "-5")⟩

/-! ## Claim C8 -/

/-- Claim C8 (restoration priority): in Phase 2, for every namespace
whose owner annotation is present, whose `delete-at` value parses,
whose domain is allowed and whose owner is found in the directory, the
non-dry-run engine issues exactly one unlabel mutation and no delete
mutation — for every `today`, including instants strictly after the
parsed expiry — and the `Deleted` counter is untouched. -/
theorem c8_restoration_priority (c : ExecCtx) (dir : Str → Bool)
    (cfg : Config) (today : Int) (ns : NS) (rs : RunState) (email : Str)
    (d : Int) (hdry : c.dryRun = false)
    (h₁ : mapGet ns.annotations ownerKey = some email)
    (h₂ : parseLabelTime ((mapGet ns.labels labelKey).getD []) = some d)
    (h₃ : ValidDomain email cfg.AllowedDomains = true)
    (h₄ : dir email = true) :
    (processLabeledNamespace c dir cfg today ns rs).trace =
      rs.trace ++ [Mutation.removeLabel ns.name] ∧
    (processLabeledNamespace c dir cfg today ns rs).stats.Deleted =
      rs.stats.Deleted := by
  simp only [processLabeledNamespace, h₁, h₂, h₃, h₄, Bool.not_true,
    Bool.false_eq_true, if_false, if_true, issue, hdry]
  cases hok : c.ok (.removeLabel ns.name) <;>
    simp [hok, Stats.IncLabelRemoved]

/-- Witness for Claim C8: owner `ghost@example.com` is back in the
directory while `ns-b`'s `delete-at` (2024-01-01) already expired
relative to now = 2024-01-10; the engine still unlabels instead of
deleting. -/
theorem c8_restoration_priority_witness :
    (processLabeledNamespace realCtx
        (fun e => decide (e = str "ghost@example.com")) scenarioCfg
        jan10of2024 nsExpired ⟨[nsExpired], Stats.empty, []⟩).trace =
      [Mutation.removeLabel (str "ns-b")] ∧
    (processLabeledNamespace realCtx
        (fun e => decide (e = str "ghost@example.com")) scenarioCfg
        jan10of2024 nsExpired ⟨[nsExpired], Stats.empty, []⟩).stats.Deleted =
      0 :=
  c8_restoration_priority realCtx
    (fun e => decide (e = str "ghost@example.com")) scenarioCfg jan10of2024
    nsExpired ⟨[nsExpired], Stats.empty, []⟩ (str "ghost@example.com")
    (daysFromCivil 2024 1 1 * 86400000000000) rfl (by decide) (by decide) (by decide)
    (by decide)

/-! ## Claim C9 -/

/-- Claim C9 (expiry strictness): in Phase 2, for every namespace whose
owner annotation is present, whose `delete-at` parses to `d`, whose
domain is allowed and whose owner is NOT in the directory, the
non-dry-run engine issues a delete mutation if and only if `today` is
strictly after `d`; when `today ≤ d` nothing at all happens — the state
is returned unchanged. -/
theorem c9_expiry_strictness (c : ExecCtx) (dir : Str → Bool)
    (cfg : Config) (today : Int) (ns : NS) (rs : RunState) (email : Str)
    (d : Int) (hdry : c.dryRun = false)
    (h₁ : mapGet ns.annotations ownerKey = some email)
    (h₂ : parseLabelTime ((mapGet ns.labels labelKey).getD []) = some d)
    (h₃ : ValidDomain email cfg.AllowedDomains = true)
    (h₄ : dir email = false) :
    (processLabeledNamespace c dir cfg today ns rs).trace =
      rs.trace ++ (if d < today then [Mutation.delete ns.name] else []) ∧
    (¬ d < today → processLabeledNamespace c dir cfg today ns rs = rs) := by
  constructor
  · by_cases hd : d < today
    · rw [if_pos hd]
      simp only [processLabeledNamespace, h₁, h₂, h₃, h₄, Bool.not_true,
        Bool.false_eq_true, if_false, hd, if_true, issue, hdry]
      cases hok : c.ok (.delete ns.name) <;> simp [hok, Stats.IncDeleted]
    · rw [if_neg hd]
      simp [processLabeledNamespace, h₁, h₂, h₃, h₄, hd]
  · intro hd
    simp [processLabeledNamespace, h₁, h₂, h₃, h₄, hd]

/-- Witness for Claim C9: `ns-b`'s `delete-at` (2024-01-01) has strictly
passed at now = 2024-01-10 and the owner is absent, so exactly the
delete mutation is issued. -/
theorem c9_expiry_strictness_witness :
    (processLabeledNamespace realCtx noUser scenarioCfg jan10of2024
        nsExpired ⟨[nsExpired], Stats.empty, []⟩).trace =
      [Mutation.delete (str "ns-b")] :=
  Eq.trans
    (c9_expiry_strictness realCtx noUser scenarioCfg jan10of2024 nsExpired
      ⟨[nsExpired], Stats.empty, []⟩ (str "ghost@example.com")
      (daysFromCivil 2024 1 1 * 86400000000000) rfl (by decide) (by decide)
      (by decide) (by decide)).1
    (by decide)

/-! ## Claim C10: helper lemmas -/

/-- A `NamespaceCleaner` call never touches the statistics. -/
theorem issue_stats (c : ExecCtx) (rs : RunState) (m : Mutation) :
    (issue c rs m).1.stats = rs.stats := by
  rw [issue]
  split
  · rfl
  · split <;> rfl

/-- The Phase 1 worker leaves the scanned total alone. -/
theorem processUnlabeled_total_eq (c : ExecCtx) (dir : Str → Bool)
    (cfg : Config) (g : Str) (ns : NS) (rs : RunState) :
    (processUnlabeledNamespace c dir cfg g ns rs).stats.TotalNamespaces =
      rs.stats.TotalNamespaces := by
  rw [processUnlabeledNamespace]
  cases mapGet ns.annotations ownerKey with
  | none => rfl
  | some email =>
    by_cases hv : (!ValidDomain email cfg.AllowedDomains) = true
    · simp [hv, Stats.IncSkippedInvalidDomain]
    · simp only [hv, if_false]
      by_cases hd : dir email = true
      · simp [hd, Stats.IncSkippedExistingUser]
      · simp only [hd, if_false]
        by_cases hok : (issue c rs (Mutation.setLabel ns.name g)).2 = true <;>
          simp [hok, issue_stats, Stats.IncLabeled]

/-- The Phase 1 worker bumps at most one outcome counter. -/
theorem processUnlabeled_outcome_le (c : ExecCtx) (dir : Str → Bool)
    (cfg : Config) (g : Str) (ns : NS) (rs : RunState) :
    outcomeSum (processUnlabeledNamespace c dir cfg g ns rs).stats ≤
      outcomeSum rs.stats + 1 := by
  rw [processUnlabeledNamespace]
  cases mapGet ns.annotations ownerKey with
  | none =>
    simp [outcomeSum, Stats.IncSkippedMissingOwner]
    omega
  | some email =>
    by_cases hv : (!ValidDomain email cfg.AllowedDomains) = true
    · simp [hv, outcomeSum, Stats.IncSkippedInvalidDomain]
      omega
    · simp only [hv, if_false]
      by_cases hd : dir email = true
      · simp [hd, outcomeSum, Stats.IncSkippedExistingUser]
        omega
      · simp only [hd, if_false]
        by_cases hok : (issue c rs (Mutation.setLabel ns.name g)).2 = true <;>
          simp [hok, issue_stats, outcomeSum, Stats.IncLabeled] <;> omega

/-- The Phase 2 worker leaves the scanned total alone. -/
theorem processLabeled_total_eq (c : ExecCtx) (dir : Str → Bool)
    (cfg : Config) (today : Int) (ns : NS) (rs : RunState) :
    (processLabeledNamespace c dir cfg today ns rs).stats.TotalNamespaces =
      rs.stats.TotalNamespaces := by
  rw [processLabeledNamespace]
  cases mapGet ns.annotations ownerKey with
  | none => rfl
  | some email =>
    cases parseLabelTime ((mapGet ns.labels labelKey).getD []) with
    | none => rfl
    | some d =>
      by_cases hv : (!ValidDomain email cfg.AllowedDomains) = true
      · simp [hv, Stats.IncSkippedInvalidDomain]
      · simp only [hv, if_false]
        by_cases hd : dir email = true
        · simp only [hd, if_true]
          by_cases hok : (issue c rs (Mutation.removeLabel ns.name)).2 = true <;>
            simp [hok, issue_stats, Stats.IncLabelRemoved]
        · simp only [hd, if_false]
          by_cases hexp : d < today
          · simp only [hexp, if_true]
            by_cases hok : (issue c rs (Mutation.delete ns.name)).2 = true <;>
              simp [hok, issue_stats, Stats.IncDeleted]
          · simp [hexp]

/-- The Phase 2 worker bumps at most one outcome counter. -/
theorem processLabeled_outcome_le (c : ExecCtx) (dir : Str → Bool)
    (cfg : Config) (today : Int) (ns : NS) (rs : RunState) :
    outcomeSum (processLabeledNamespace c dir cfg today ns rs).stats ≤
      outcomeSum rs.stats + 1 := by
  rw [processLabeledNamespace]
  cases mapGet ns.annotations ownerKey with
  | none =>
    simp [outcomeSum, Stats.IncSkippedMissingOwner]
    omega
  | some email =>
    cases parseLabelTime ((mapGet ns.labels labelKey).getD []) with
    | none =>
      simp [outcomeSum, Stats.IncInvalidLabel]
      omega
    | some d =>
      by_cases hv : (!ValidDomain email cfg.AllowedDomains) = true
      · simp [hv, outcomeSum, Stats.IncSkippedInvalidDomain]
        omega
      · simp only [hv, if_false]
        by_cases hd : dir email = true
        · simp only [hd, if_true]
          by_cases hok : (issue c rs (Mutation.removeLabel ns.name)).2 = true <;>
            simp [hok, issue_stats, outcomeSum, Stats.IncLabelRemoved] <;> omega
        · simp only [hd, if_false]
          by_cases hexp : d < today
          · simp only [hexp, if_true]
            by_cases hok : (issue c rs (Mutation.delete ns.name)).2 = true <;>
              simp [hok, issue_stats, outcomeSum, Stats.IncDeleted] <;> omega
          · simp [hexp]

/-- The per-phase loop scans exactly the listed items and accumulates at
most one outcome per scanned namespace. -/
theorem processItems_stats_bound (step : NS → RunState → RunState)
    (hTot : ∀ ns rs, (step ns rs).stats.TotalNamespaces =
      rs.stats.TotalNamespaces)
    (hSum : ∀ ns rs, outcomeSum (step ns rs).stats ≤ outcomeSum rs.stats + 1)
    (items : List NS) (rs : RunState) :
    (processItems step items rs).stats.TotalNamespaces =
      rs.stats.TotalNamespaces + items.length ∧
    outcomeSum (processItems step items rs).stats ≤
      outcomeSum rs.stats + items.length := by
  induction items generalizing rs with
  | nil => simp [processItems]
  | cons ns rest ih =>
    simp only [processItems, List.foldl_cons] at ih ⊢
    have h₁ := hTot ns { rs with stats := rs.stats.IncTotal }
    have h₂ := hSum ns { rs with stats := rs.stats.IncTotal }
    have h₃ := ih (step ns { rs with stats := rs.stats.IncTotal })
    have ht : ({ rs with stats := rs.stats.IncTotal } : RunState).stats.TotalNamespaces =
        rs.stats.TotalNamespaces + 1 := rfl
    have ho : outcomeSum ({ rs with stats := rs.stats.IncTotal } : RunState).stats =
        outcomeSum rs.stats := rfl
    simp only [List.length_cons]
    omega

/-! ## Claim C10 -/

/-- Claim C10 (statistics consistency invariant): after every
`ProcessNamespaces` run, each scanned namespace contributed exactly one
`TotalNamespaces` increment and at most one outcome-counter increment,
so `Labeled + Deleted + LabelsRemoved + InvalidLabels +
SkippedMissingOwner + SkippedInvalidDomain + SkippedExistingUser`
never exceeds `TotalNamespaces`. -/
theorem c10_outcome_counters_bounded (c : ExecCtx) (dir : Str → Bool)
    (cfg : Config) (now : Int) (lf : ListFailures) (store : List NS) :
    outcomeSum (ProcessNamespaces c dir cfg now lf store).stats ≤
      (ProcessNamespaces c dir cfg now lf store).stats.TotalNamespaces := by
  obtain ⟨i, p1, p2⟩ := lf
  cases i with
  | true => simp [ProcessNamespaces, outcomeSum, Stats.empty]
  | false =>
    cases p1 with
    | true => simp [ProcessNamespaces, outcomeSum, Stats.empty]
    | false =>
      have h₁ := processItems_stats_bound _
        (processUnlabeled_total_eq c dir cfg
          (formatLabelTime (now + cfg.GracePeriod * 86400000000000)))
        (processUnlabeled_outcome_le c dir cfg
          (formatLabelTime (now + cfg.GracePeriod * 86400000000000)))
        (store.filter phase1Selector) ⟨store, Stats.empty, []⟩
      have h0 : (⟨store, Stats.empty, []⟩ : RunState).stats.TotalNamespaces = 0 := rfl
      have h0' : outcomeSum (⟨store, Stats.empty, []⟩ : RunState).stats = 0 := rfl
      cases p2 with
      | true =>
        simp only [ProcessNamespaces, Bool.false_eq_true, if_false, if_true,
          processPhase1]
        omega
      | false =>
        simp only [ProcessNamespaces, Bool.false_eq_true, if_false,
          processPhase1, processPhase2]
        have h₂ := processItems_stats_bound _
          (processLabeled_total_eq c dir cfg now)
          (processLabeled_outcome_le c dir cfg now)
          ((processItems
              (processUnlabeledNamespace c dir cfg
                (formatLabelTime (now + cfg.GracePeriod * 86400000000000)))
              (store.filter phase1Selector)
              ⟨store, Stats.empty, []⟩).store.filter phase2Selector)
          (processItems
            (processUnlabeledNamespace c dir cfg
              (formatLabelTime (now + cfg.GracePeriod * 86400000000000)))
            (store.filter phase1Selector) ⟨store, Stats.empty, []⟩)
        omega

/-! ## Claim C7: split lemmas -/

/-- Go `strings.Split` never returns an empty slice. -/
theorem splitOnChar_ne_nil (c : Char) (s : Str) : splitOnChar c s ≠ [] := by
  induction s with
  | nil => simp [splitOnChar]
  | cons x xs ih =>
    rw [splitOnChar]
    split
    · simp
    · split <;> simp

/-- Splitting a separator-free string yields the single field. -/
theorem splitOnChar_not_mem (c : Char) (s : Str) (h : c ∉ s) :
    splitOnChar c s = [s] := by
  induction s with
  | nil => rfl
  | cons x xs ih =>
    have hx : ¬x = c := by
      rintro rfl
      exact h (List.mem_cons_self _ _)
    have hxs : c ∉ xs := fun hm => h (List.mem_cons_of_mem _ hm)
    rw [splitOnChar, if_neg hx, ih hxs]

/-- Splitting past a first separator detaches the separator-free head
field. -/
theorem splitOnChar_sep (c : Char) (l t : Str) (h : c ∉ l) :
    splitOnChar c (l ++ c :: t) = l :: splitOnChar c t := by
  induction l with
  | nil => simp [splitOnChar]
  | cons x xs ih =>
    have hx : ¬x = c := by
      rintro rfl
      exact h (List.mem_cons_self _ _)
    have hxs : c ∉ xs := fun hm => h (List.mem_cons_of_mem _ hm)
    rw [List.cons_append, splitOnChar, if_neg hx, ih hxs]

/-- A one-field split means the separator does not occur. -/
theorem splitOnChar_eq_single (c : Char) (s d : Str)
    (h : splitOnChar c s = [d]) : s = d ∧ c ∉ s := by
  induction s generalizing d with
  | nil =>
    rw [splitOnChar] at h
    injection h with h1 h2
    subst h1
    exact ⟨rfl, by simp⟩
  | cons x xs ih =>
    rw [splitOnChar] at h
    by_cases hx : x = c
    · rw [if_pos hx] at h
      injection h with h1 h2
      exact absurd h2 (splitOnChar_ne_nil c xs)
    · rw [if_neg hx] at h
      cases hs : splitOnChar c xs with
      | nil => exact absurd hs (splitOnChar_ne_nil c xs)
      | cons hh tt =>
        rw [hs] at h
        injection h with h1 h2
        subst h2
        obtain ⟨rfl, hmem⟩ := ih hh hs
        refine ⟨h1, fun hm => ?_⟩
        rcases List.mem_cons.mp hm with h' | h'
        · exact hx h'.symm
        · exact hmem h'

/-- A two-field split characterises the decomposition at the unique
separator occurrence. -/
theorem splitOnChar_eq_pair (c : Char) (s l d : Str)
    (h : splitOnChar c s = [l, d]) :
    s = l ++ c :: d ∧ c ∉ l ∧ c ∉ d := by
  induction s generalizing l with
  | nil =>
    rw [splitOnChar] at h
    simp at h
  | cons x xs ih =>
    rw [splitOnChar] at h
    by_cases hx : x = c
    · rw [if_pos hx] at h
      injection h with h1 h2
      subst h1
      obtain ⟨rfl, hd⟩ := splitOnChar_eq_single c xs d h2
      refine ⟨by rw [hx, List.nil_append], by simp, ?_⟩
      intro hm
      exact hd hm
    · rw [if_neg hx] at h
      cases hs : splitOnChar c xs with
      | nil => exact absurd hs (splitOnChar_ne_nil c xs)
      | cons hh tt =>
        rw [hs] at h
        injection h with h1 h2
        subst h1
        obtain ⟨hdec, hml, hmd⟩ := ih hh (by rw [hs, h2])
        refine ⟨?_, ?_, hmd⟩
        · rw [List.cons_append, hdec]
        · intro hm
          rcases List.mem_cons.mp hm with h' | h'
          · exact hx h'.symm
          · exact hml h'

/-! ## Claim C7 -/

/-- Claim C7 as amended (domain validation): `ValidDomain` accepts an
email against an allowlist exactly when the email decomposes as
`loc ++ "@" ++ dom` with no other `@` anywhere — the parts may be
empty — and `dom` equals an allowed domain or has `"." ++ allowed` as a
suffix (strict dot-suffix subdomain match), case-sensitively. -/
theorem c7_domain_validation (email : Str) (domains : List Str) :
    ValidDomain email domains = true ↔ ValidDomainSpec email domains := by
  constructor
  · intro h
    rw [ValidDomain] at h
    cases hs : splitOnChar '@' email with
    | nil => exact absurd hs (splitOnChar_ne_nil _ _)
    | cons p1 rest =>
      cases rest with
      | nil =>
        rw [hs] at h
        simp at h
      | cons p2 rest2 =>
        cases rest2 with
        | nil =>
          rw [hs] at h
          obtain ⟨hdec, hm1, hm2⟩ := splitOnChar_eq_pair '@' email p1 p2 hs
          rw [List.any_eq_true] at h
          obtain ⟨a, ha, hcond⟩ := h
          rw [Bool.or_eq_true, decide_eq_true_iff] at hcond
          refine ⟨p1, p2, hdec, hm1, hm2, a, ha, ?_⟩
          rcases hcond with h' | h'
          · exact Or.inl h'
          · rw [hasSuffix, decide_eq_true_iff] at h'
            exact Or.inr h'
        | cons q qs =>
          rw [hs] at h
          simp at h
  · rintro ⟨loc, dom, rfl, hml, hmd, a, ha, hcase⟩
    rw [ValidDomain, splitOnChar_sep '@' loc dom hml,
      splitOnChar_not_mem '@' dom hmd]
    rw [List.any_eq_true]
    refine ⟨a, ha, ?_⟩
    rcases hcase with h | h
    · simp [h]
    · simp [hasSuffix, h]

/-! ## Claim C3: helper lemmas -/

/-- Under dry-run, a `NamespaceCleaner` call does nothing and reports
success. -/
theorem issue_dry (ok : Mutation → Bool) (rs : RunState) (m : Mutation) :
    issue ⟨true, ok⟩ rs m = (rs, true) := by
  simp [issue]

/-- Under the all-successful real context, a call reports success. -/
theorem issue_real_ok (rs : RunState) (m : Mutation) :
    (issue realCtx rs m).2 = true := by
  simp [issue, realCtx]

/-- The dry-run Phase 1 worker touches neither store nor trace. -/
theorem processUnlabeled_dry_frame (ok : Mutation → Bool) (dir : Str → Bool)
    (cfg : Config) (g : Str) (ns : NS) (rs : RunState) :
    (processUnlabeledNamespace ⟨true, ok⟩ dir cfg g ns rs).store = rs.store ∧
    (processUnlabeledNamespace ⟨true, ok⟩ dir cfg g ns rs).trace = rs.trace := by
  rw [processUnlabeledNamespace]
  cases mapGet ns.annotations ownerKey with
  | none => exact ⟨rfl, rfl⟩
  | some email =>
    by_cases hv : (!ValidDomain email cfg.AllowedDomains) = true
    · simp [hv]
    · simp only [hv, if_false]
      by_cases hd : dir email = true
      · simp [hd]
      · simp only [hd, if_false]
        simp [issue_dry]

/-- The dry-run Phase 2 worker touches neither store nor trace. -/
theorem processLabeled_dry_frame (ok : Mutation → Bool) (dir : Str → Bool)
    (cfg : Config) (today : Int) (ns : NS) (rs : RunState) :
    (processLabeledNamespace ⟨true, ok⟩ dir cfg today ns rs).store = rs.store ∧
    (processLabeledNamespace ⟨true, ok⟩ dir cfg today ns rs).trace = rs.trace := by
  rw [processLabeledNamespace]
  cases mapGet ns.annotations ownerKey with
  | none => exact ⟨rfl, rfl⟩
  | some email =>
    cases parseLabelTime ((mapGet ns.labels labelKey).getD []) with
    | none => exact ⟨rfl, rfl⟩
    | some d =>
      by_cases hv : (!ValidDomain email cfg.AllowedDomains) = true
      · simp [hv]
      · simp only [hv, if_false]
        by_cases hd : dir email = true
        · simp [hd, issue_dry]
        · simp only [hd, if_false]
          by_cases hexp : d < today
          · simp [hexp, issue_dry]
          · simp [hexp]

/-- A per-phase loop whose worker preserves store and trace preserves
them over the whole phase. -/
theorem processItems_frame (step : NS → RunState → RunState)
    (hstep : ∀ ns rs, (step ns rs).store = rs.store ∧
      (step ns rs).trace = rs.trace)
    (items : List NS) : ∀ rs : RunState,
    (processItems step items rs).store = rs.store ∧
    (processItems step items rs).trace = rs.trace := by
  induction items with
  | nil => exact fun rs => ⟨rfl, rfl⟩
  | cons ns rest ih =>
    intro rs
    simp only [processItems, List.foldl_cons] at ih ⊢
    have h₁ := hstep ns { rs with stats := rs.stats.IncTotal }
    have h₂ := ih (step ns { rs with stats := rs.stats.IncTotal })
    exact ⟨h₂.1.trans h₁.1, h₂.2.trans h₁.2⟩

/-- Between two execution contexts whose calls all succeed, the Phase 1
worker performs the same statistics update (the update depends only on
the namespace snapshot, the directory and the configuration). -/
theorem processUnlabeled_stats_congr (c₁ c₂ : ExecCtx)
    (h₁ : ∀ rs m, (issue c₁ rs m).2 = true)
    (h₂ : ∀ rs m, (issue c₂ rs m).2 = true)
    (dir : Str → Bool) (cfg : Config) (g₁ g₂ : Str) (ns : NS)
    (rs₁ rs₂ : RunState) (hst : rs₁.stats = rs₂.stats) :
    (processUnlabeledNamespace c₁ dir cfg g₁ ns rs₁).stats =
      (processUnlabeledNamespace c₂ dir cfg g₂ ns rs₂).stats := by
  rw [processUnlabeledNamespace, processUnlabeledNamespace]
  cases mapGet ns.annotations ownerKey with
  | none => simp [hst]
  | some email =>
    by_cases hv : (!ValidDomain email cfg.AllowedDomains) = true
    · simp [hv, hst]
    · simp only [hv, if_false]
      by_cases hd : dir email = true
      · simp [hd, hst]
      · simp only [hd, if_false]
        simp [h₁, h₂, issue_stats, hst]

/-- Between two execution contexts whose calls all succeed, the Phase 2
worker performs the same statistics update. -/
theorem processLabeled_stats_congr (c₁ c₂ : ExecCtx)
    (h₁ : ∀ rs m, (issue c₁ rs m).2 = true)
    (h₂ : ∀ rs m, (issue c₂ rs m).2 = true)
    (dir : Str → Bool) (cfg : Config) (today : Int) (ns : NS)
    (rs₁ rs₂ : RunState) (hst : rs₁.stats = rs₂.stats) :
    (processLabeledNamespace c₁ dir cfg today ns rs₁).stats =
      (processLabeledNamespace c₂ dir cfg today ns rs₂).stats := by
  rw [processLabeledNamespace, processLabeledNamespace]
  cases mapGet ns.annotations ownerKey with
  | none => simp [hst]
  | some email =>
    cases parseLabelTime ((mapGet ns.labels labelKey).getD []) with
    | none => simp [hst]
    | some d =>
      by_cases hv : (!ValidDomain email cfg.AllowedDomains) = true
      · simp [hv, hst]
      · simp only [hv, if_false]
        by_cases hd : dir email = true
        · simp [hd, h₁, h₂, issue_stats, hst]
        · simp only [hd, if_false]
          by_cases hexp : d < today
          · simp [hexp, h₁, h₂, issue_stats, hst]
          · simp [hexp, hst]

/-- Two per-phase loops over the same items with statistics-congruent
workers produce equal statistics. -/
theorem processItems_stats_congr (step₁ step₂ : NS → RunState → RunState)
    (hstep : ∀ ns rs₁ rs₂, rs₁.stats = rs₂.stats →
      (step₁ ns rs₁).stats = (step₂ ns rs₂).stats)
    (items : List NS) : ∀ rs₁ rs₂ : RunState, rs₁.stats = rs₂.stats →
    (processItems step₁ items rs₁).stats =
      (processItems step₂ items rs₂).stats := by
  induction items with
  | nil => exact fun _ _ h => h
  | cons ns rest ih =>
    intro rs₁ rs₂ h
    simp only [processItems, List.foldl_cons] at ih ⊢
    exact ih _ _ (hstep ns _ _ (congrArg Stats.IncTotal h))

/-- If a key is absent from a label map, every entry passes the
remove-filter. -/
theorem mapGet_none_filter (m : List (Str × Str)) (k : Str)
    (h : mapGet m k = none) :
    ∀ p ∈ m, (decide (p.1 ≠ k)) = true := by
  intro p hp
  rw [mapGet] at h
  cases hf : List.find? (fun q => decide (q.1 = k)) m with
  | some q => rw [hf] at h; cases h
  | none =>
    have := List.find?_eq_none.mp hf p hp
    simpa using this

/-- Setting a previously-absent label and then removing it restores the
original label map. -/
theorem lset_lremove_cancel (m : List (Str × Str)) (k v : Str)
    (h : mapGet m k = none) : lremove (lset m k v) k = m := by
  rw [lremove, lset, List.filter_append, List.filter_filter]
  simp only [Bool.and_self]
  rw [List.filter_eq_self.mpr (mapGet_none_filter m k h)]
  simp

/-- On a store with unique names, labeling a namespace that does not
carry the `delete-at` label and then unlabeling it restores the store
exactly. -/
theorem storeRemove_storeSet_cancel (store : List NS) (n v : Str)
    (hnodup : (store.map NS.name).Nodup) (ns : NS) (hmem : ns ∈ store)
    (hname : ns.name = n) (hlab : mapGet ns.labels labelKey = none) :
    applyToStore (applyToStore store (.setLabel n v)) (.removeLabel n) =
      store := by
  rw [applyToStore, applyToStore, List.map_map]
  have hpt : ∀ r ∈ store,
      ((fun r : NS => if r.name = n
          then { r with labels := lremove r.labels labelKey } else r) ∘
        (fun r : NS => if r.name = n
          then { r with labels := lset r.labels labelKey v } else r)) r =
      id r := by
    intro r hr
    simp only [Function.comp_apply, id_eq]
    by_cases hrn : r.name = n
    · have hreq : r = ns :=
        List.inj_on_of_nodup_map hnodup hr hmem (by rw [hrn, hname])
      subst hreq
      simp only [hrn, if_pos]
      rw [lset_lremove_cancel r.labels labelKey v hlab, ← hrn]
    · simp [hrn]
  rw [List.map_congr_left hpt, List.map_id]

/-- In the all-successful real context, processing a Phase 1 candidate
(no `delete-at` label, unique names) leaves the store unchanged: the
label-set mutation is undone by the immediately following label-remove. -/
theorem processUnlabeled_store_id (dir : Str → Bool) (cfg : Config)
    (g : Str) (store : List NS) (hnodup : (store.map NS.name).Nodup)
    (ns : NS) (hmem : ns ∈ store) (hlab : mapGet ns.labels labelKey = none)
    (rs : RunState) (hrs : rs.store = store) :
    (processUnlabeledNamespace realCtx dir cfg g ns rs).store = store := by
  rw [processUnlabeledNamespace]
  cases mapGet ns.annotations ownerKey with
  | none => exact hrs
  | some email =>
    by_cases hv : (!ValidDomain email cfg.AllowedDomains) = true
    · simpa [hv] using hrs
    · simp only [hv, if_false]
      by_cases hd : dir email = true
      · simpa [hd] using hrs
      · simp only [hd, if_false]
        simp only [issue, realCtx, Bool.false_eq_true, if_false, if_true]
        rw [hrs]
        exact storeRemove_storeSet_cancel store ns.name g hnodup ns hmem rfl hlab

/-- A per-phase loop whose worker keeps the store at `store` keeps the
store at `store`. -/
theorem processItems_store_id (step : NS → RunState → RunState)
    (store : List NS) (items : List NS)
    (hstep : ∀ ns ∈ items, ∀ rs : RunState, rs.store = store →
      (step ns rs).store = store) :
    ∀ rs : RunState, rs.store = store →
    (processItems step items rs).store = store := by
  induction items with
  | nil => exact fun _ h => h
  | cons ns rest ih =>
    intro rs h
    simp only [processItems, List.foldl_cons]
    have hrest : ∀ n ∈ rest, ∀ rs' : RunState, rs'.store = store →
        (step n rs').store = store :=
      fun n hn rs' h' => hstep n (List.mem_cons_of_mem _ hn) rs' h'
    have := ih hrest
    exact this _ (hstep ns (List.mem_cons_self _ _)
      { rs with stats := rs.stats.IncTotal } h)

/-- Dry-run Phase 1 touches neither store nor trace. -/
theorem processPhase1_dry_frame (ok : Mutation → Bool) (dir : Str → Bool)
    (cfg : Config) (g : Str) (rs : RunState) :
    (processPhase1 ⟨true, ok⟩ dir cfg g rs).store = rs.store ∧
    (processPhase1 ⟨true, ok⟩ dir cfg g rs).trace = rs.trace := by
  rw [processPhase1]
  exact processItems_frame _
    (fun ns rs' => processUnlabeled_dry_frame ok dir cfg g ns rs') _ rs

/-- Dry-run Phase 2 touches neither store nor trace. -/
theorem processPhase2_dry_frame (ok : Mutation → Bool) (dir : Str → Bool)
    (cfg : Config) (today : Int) (rs : RunState) :
    (processPhase2 ⟨true, ok⟩ dir cfg today rs).store = rs.store ∧
    (processPhase2 ⟨true, ok⟩ dir cfg today rs).trace = rs.trace := by
  rw [processPhase2]
  exact processItems_frame _
    (fun ns rs' => processLabeled_dry_frame ok dir cfg today ns rs') _ rs

/-- Phase 1 under dry-run and under the all-successful real context
computes the same statistics from states agreeing on store and
statistics. -/
theorem processPhase1_stats_congr (ok : Mutation → Bool) (dir : Str → Bool)
    (cfg : Config) (g : Str) (rs₁ rs₂ : RunState)
    (hs : rs₁.store = rs₂.store) (hst : rs₁.stats = rs₂.stats) :
    (processPhase1 ⟨true, ok⟩ dir cfg g rs₁).stats =
      (processPhase1 realCtx dir cfg g rs₂).stats := by
  rw [processPhase1, processPhase1, hs]
  exact processItems_stats_congr _ _
    (fun ns a b h => processUnlabeled_stats_congr ⟨true, ok⟩ realCtx
      (fun rs m => by rw [issue_dry]) issue_real_ok dir cfg g g ns a b h)
    _ rs₁ rs₂ hst

/-- Phase 2 under dry-run and under the all-successful real context
computes the same statistics from states agreeing on store and
statistics. -/
theorem processPhase2_stats_congr (ok : Mutation → Bool) (dir : Str → Bool)
    (cfg : Config) (today : Int) (rs₁ rs₂ : RunState)
    (hs : rs₁.store = rs₂.store) (hst : rs₁.stats = rs₂.stats) :
    (processPhase2 ⟨true, ok⟩ dir cfg today rs₁).stats =
      (processPhase2 realCtx dir cfg today rs₂).stats := by
  rw [processPhase2, processPhase2, hs]
  exact processItems_stats_congr _ _
    (fun ns a b h => processLabeled_stats_congr ⟨true, ok⟩ realCtx
      (fun rs m => by rw [issue_dry]) issue_real_ok dir cfg today ns a b h)
    _ rs₁ rs₂ hst

/-- In the all-successful real context, Phase 1 returns the store
unchanged on a store with unique names: every candidate it labels it
immediately unlabels again. -/
theorem processPhase1_real_store_id (dir : Str → Bool) (cfg : Config)
    (g : Str) (store : List NS) (hnodup : (store.map NS.name).Nodup)
    (rs : RunState) (hrs : rs.store = store) :
    (processPhase1 realCtx dir cfg g rs).store = store := by
  rw [processPhase1, hrs]
  refine processItems_store_id _ store _ ?_ rs hrs
  intro ns hns rs' hrs'
  have hmem := (List.mem_filter.mp hns).1
  have hsel := (List.mem_filter.mp hns).2
  rw [phase1Selector, Bool.and_eq_true] at hsel
  have hlab : mapGet ns.labels labelKey = none := of_decide_eq_true hsel.2
  exact processUnlabeled_store_id dir cfg g store hnodup ns hmem hlab rs' hrs'

/-! ## Claim C3 -/

/-- Claim C3 (dry-run purity): for every namespace store with unique
names, every directory, configuration, instant and list-failure
pattern, the dry-run `ProcessNamespaces` leaves the store untouched
(hence every namespace's labels and annotations and the store's
namespace count are unchanged) and issues no mutation, while its
statistics — in particular `Labeled` and `Deleted` — equal those of the
otherwise-identical non-dry-run run in which every mutation succeeds. -/
theorem c3_dry_run_purity (dir : Str → Bool) (ok : Mutation → Bool)
    (cfg : Config) (now : Int) (lf : ListFailures) (store : List NS)
    (hnodup : (store.map NS.name).Nodup) :
    (ProcessNamespaces ⟨true, ok⟩ dir cfg now lf store).store = store ∧
    (ProcessNamespaces ⟨true, ok⟩ dir cfg now lf store).trace = [] ∧
    (ProcessNamespaces ⟨true, ok⟩ dir cfg now lf store).stats =
      (ProcessNamespaces realCtx dir cfg now lf store).stats := by
  obtain ⟨i, p1, p2⟩ := lf
  cases i with
  | true => exact ⟨rfl, rfl, rfl⟩
  | false =>
    cases p1 with
    | true => exact ⟨rfl, rfl, rfl⟩
    | false =>
      cases p2 with
      | true =>
        simp only [ProcessNamespaces, Bool.false_eq_true, if_false, if_true]
        have hf := processPhase1_dry_frame ok dir cfg
          (formatLabelTime (now + cfg.GracePeriod * 86400000000000))
          ⟨store, Stats.empty, []⟩
        exact ⟨hf.1, hf.2, processPhase1_stats_congr ok dir cfg _ _ _ rfl rfl⟩
      | false =>
        simp only [ProcessNamespaces, Bool.false_eq_true, if_false]
        have h1f := processPhase1_dry_frame ok dir cfg
          (formatLabelTime (now + cfg.GracePeriod * 86400000000000))
          ⟨store, Stats.empty, []⟩
        have h2f := processPhase2_dry_frame ok dir cfg now
          (processPhase1 ⟨true, ok⟩ dir cfg
            (formatLabelTime (now + cfg.GracePeriod * 86400000000000))
            ⟨store, Stats.empty, []⟩)
        have h1r := processPhase1_real_store_id dir cfg
          (formatLabelTime (now + cfg.GracePeriod * 86400000000000)) store hnodup
          ⟨store, Stats.empty, []⟩ rfl
        have h1s := processPhase1_stats_congr ok dir cfg
          (formatLabelTime (now + cfg.GracePeriod * 86400000000000))
          ⟨store, Stats.empty, []⟩ ⟨store, Stats.empty, []⟩ rfl rfl
        refine ⟨h2f.1.trans h1f.1, h2f.2.trans h1f.2, ?_⟩
        exact processPhase2_stats_congr ok dir cfg now _ _
          (h1f.1.trans h1r.symm) h1s

/-- Witness for Claim C3, on the two-namespace store holding the
Phase 1 candidate `ns-a` and the expired Phase 2 candidate `ns-b` at
now = 2024-01-10. -/
theorem c3_dry_run_purity_witness :
    (ProcessNamespaces ⟨true, fun _ => true⟩ noUser scenarioCfg jan10of2024
      noListFailures [nsA, nsExpired]).store = [nsA, nsExpired] ∧
    (ProcessNamespaces ⟨true, fun _ => true⟩ noUser scenarioCfg jan10of2024
      noListFailures [nsA, nsExpired]).trace = [] ∧
    (ProcessNamespaces ⟨true, fun _ => true⟩ noUser scenarioCfg jan10of2024
      noListFailures [nsA, nsExpired]).stats =
      (ProcessNamespaces realCtx noUser scenarioCfg jan10of2024
        noListFailures [nsA, nsExpired]).stats :=
  c3_dry_run_purity noUser (fun _ => true) scenarioCfg jan10of2024
    noListFailures [nsA, nsExpired] (by decide)
